import Mathlib

/-!
Shallow embedding of `modl/classification.py` (the factored multi-task
estimator `FactoredLogistic`, its collaborators `Projector`,
`make_factored_model`, `make_simple_model`) and proofs about the embedded
definitions.  Feature values and labels are modelled as integers (the claims
under study do not depend on floating-point arithmetic); probabilities and
learning rates are modelled as rationals; numpy's pseudo-random generator is
modelled as a deterministic state machine (the claims depend only on the fact
that drawing a permutation advances the state, not on the distribution).
-/

/-! ## Generic list utilities mirroring numpy primitives -/

/-- Insert an integer into a strictly sorted list, keeping it sorted and
duplicate-free.  Building block for `uniqueSorted` (numpy's `np.unique`). -/
def insertUnique (x : Int) : List Int → List Int
  | [] => [x]
  | y :: ys =>
    if x < y then x :: y :: ys
    else if x = y then y :: ys
    else y :: insertUnique x ys

/-- `np.unique`: the sorted list of distinct values of `l` (ascending). -/
def uniqueSorted (l : List Int) : List Int := l.foldr insertUnique []

theorem mem_insertUnique (x a : Int) (l : List Int) :
    a ∈ insertUnique x l ↔ a = x ∨ a ∈ l := by
  induction l with
  | nil => simp [insertUnique]
  | cons y ys ih =>
    simp only [insertUnique]
    by_cases h1 : x < y
    · simp [h1]
    · by_cases h2 : x = y
      · subst h2
        simp [h1]
      · simp [h1, h2, ih]
        tauto

theorem insertUnique_forall_lt (x b : Int) (l : List Int)
    (hb : ∀ a ∈ l, b < a) (hxb : b < x) :
    ∀ a ∈ insertUnique x l, b < a := by
  intro a ha
  rcases (mem_insertUnique x a l).mp ha with h | h
  · subst h; exact hxb
  · exact hb a h

theorem pairwise_insertUnique (x : Int) (l : List Int)
    (h : l.Pairwise (· < ·)) : (insertUnique x l).Pairwise (· < ·) := by
  induction l with
  | nil => simp [insertUnique]
  | cons y ys ih =>
    rw [List.pairwise_cons] at h
    obtain ⟨hy, hys⟩ := h
    simp only [insertUnique]
    by_cases h1 : x < y
    · rw [if_pos h1, List.pairwise_cons]
      constructor
      · intro a ha
        rcases List.mem_cons.mp ha with h | h
        · omega
        · exact lt_trans h1 (hy a h)
      · rw [List.pairwise_cons]; exact ⟨hy, hys⟩
    · by_cases h2 : x = y
      · rw [if_neg h1, if_pos h2, List.pairwise_cons]
        exact ⟨hy, hys⟩
      · rw [if_neg h1, if_neg h2, List.pairwise_cons]
        have hyx : y < x := by omega
        constructor
        · intro a ha
          exact insertUnique_forall_lt x y ys hy hyx a ha
        · exact ih hys

theorem pairwise_uniqueSorted (l : List Int) :
    (uniqueSorted l).Pairwise (· < ·) := by
  induction l with
  | nil => simp [uniqueSorted]
  | cons x xs ih => exact pairwise_insertUnique x _ ih

theorem mem_uniqueSorted (l : List Int) (a : Int) :
    a ∈ uniqueSorted l ↔ a ∈ l := by
  induction l with
  | nil => simp [uniqueSorted]
  | cons x xs ih =>
    show a ∈ insertUnique x (uniqueSorted xs) ↔ _
    rw [mem_insertUnique, ih]
    simp

theorem nodup_uniqueSorted (l : List Int) : (uniqueSorted l).Nodup :=
  (pairwise_uniqueSorted l).imp (fun h => ne_of_lt h)

/-- Count of an element in a filtered list. -/
theorem count_filter_eq {α : Type} [DecidableEq α] (p : α → Bool) (l : List α)
    (a : α) : (l.filter p).count a = if p a then l.count a else 0 := by
  induction l with
  | nil => simp
  | cons x xs ih =>
    by_cases hx : p x
    · by_cases hax : a = x
      · subst hax
        simp [List.filter_cons, hx, List.count_cons, ih]
      · simp [List.filter_cons, hx, List.count_cons, ih, hax]
    · by_cases hax : a = x
      · subst hax
        simp [List.filter_cons, hx, List.count_cons, ih]
      · simp [List.filter_cons, hx, List.count_cons, ih, hax]

theorem count_join_map {α : Type} [DecidableEq α] (f : Int → List α)
    (ds : List Int) (a : α) :
    ((ds.map f).flatten).count a = (ds.map (fun d => (f d).count a)).sum := by
  induction ds with
  | nil => simp
  | cons d ds ih => simp [List.count_append, ih]

theorem sum_count_filter_key {α : Type} [DecidableEq α] (k : α → Int)
    (l : List α) (a : α) : ∀ (ds : List Int), ds.Nodup →
    (ds.map (fun d => (l.filter (fun x => k x = d)).count a)).sum
      = if k a ∈ ds then l.count a else 0 := by
  intro ds
  induction ds with
  | nil => simp
  | cons d ds ih =>
    intro hnd
    rw [List.nodup_cons] at hnd
    obtain ⟨hd, hnd⟩ := hnd
    simp only [List.map_cons, List.sum_cons, ih hnd]
    rw [count_filter_eq]
    by_cases hka : k a = d
    · have hnotin : k a ∉ ds := by rw [hka]; exact hd
      simp [hka, hnotin, List.mem_cons]
      exact fun h => absurd h hd
    · simp [hka, List.mem_cons]

/-! ## sklearn `LabelBinarizer` (per-dataset label encoder) -/

/-- `sklearn.preprocessing.LabelBinarizer.transform` for a fitted class set
`classes` (sorted, distinct): with three or more classes it produces a one-hot
row per label; with exactly two classes a single column indicating the second
(larger) class; with at most one class a single all-zero column. -/
def labelBinarize (classes : List Int) (y : List Int) : List (List Nat) :=
  if classes.length ≤ 1 then y.map (fun _ => [0])
  else if classes.length = 2 then
    y.map (fun v => [if v = classes.getLastD 0 then 1 else 0])
  else y.map (fun v => classes.map (fun c => if v = c then 1 else 0))

/-- `LabelBinarizer().fit_transform(y)`: fit the class set on `y` itself
(sorted unique values) and binarize `y` against it. -/
def fitTransformLB (y : List Int) : List (List Nat) :=
  labelBinarize (uniqueSorted y) y

/-! ## Fit-input handling: trailing dataset-id column, partitioning -/

/-- The trailing dataset-id column of a sample matrix (`X[:, -1]`). -/
def lastCol (X : List (List Int)) : List Int := X.map (fun r => r.getLastD 0)

/-- The feature part of a sample matrix (`X[:, :-1]`). -/
def dropIds (X : List (List Int)) : List (List Int) := X.map (fun r => r.dropLast)

/-- The dataset id of a single row. -/
def rowDataset (r : List Int) : Int := r.getLastD 0

/-- Feature rows paired with their labels (row correspondence of `X` and `y`). -/
def taggedRows (X : List (List Int)) (y : List Int) : List (List Int × Int) :=
  X.zip y

/-- The dataset partitioner of `FactoredLogistic.fit`: for each unique dataset
id (ascending), the rows (with labels) whose trailing id equals it, in their
original relative order (boolean-mask selection `X[datasets == d]`). -/
def partitionByDataset (X : List (List Int)) (y : List Int) :
    List (List (List Int × Int)) :=
  (uniqueSorted (lastCol X)).map
    (fun d => (taggedRows X y).filter (fun p => rowDataset p.1 = d))

/-! ## Random generator model and shuffling

numpy's `RandomState` is modelled as a deterministic state machine: an LCG
state, advanced once per `permutation` call; the permutation drawn from state
`s` on `n` items is the rotation by `s % n`.  The claims under study depend
only on statefulness (each draw advances the state), not on the distribution. -/

/-- One step of the generator (an LCG on 31 bits). -/
def lcg (s : Nat) : Nat := (s * 1103515245 + 12345) % 2147483648

/-- `random_state.permutation(n)`: a permutation of `0..n-1` derived from the
current state, together with the advanced state. -/
def randPerm (s n : Nat) : List Nat × Nat :=
  ((List.range n).map (fun i => (i + s) % n), lcg s)

/-- `check_random_state` argument: either a plain integer seed or an already
materialized generator object carrying its state. -/
inductive RSParam
  | seed (n : Nat)
  | gen (s : Nat)
deriving DecidableEq, Repr

/-- `sklearn.utils.check_random_state`: a seed builds a fresh generator from
it; a generator object is returned as is (same state). -/
def check_random_state : RSParam → Nat
  | .seed n => n
  | .gen s => s

/-- Reindex a list by a permutation (`arr[permutation]`). -/
def applyPerm (p : List Nat) (l : List α) (dflt : α) : List α :=
  p.map (fun i => l.getD i dflt)

/-- `sklearn.utils.gen_batches n b`: contiguous index ranges
`(0,b), (b,2b), …` covering `0..n-1`, the last one possibly shorter. -/
def genBatches (n b : Nat) : List (Nat × Nat) :=
  if b = 0 then []
  else (List.range (n / b)).map (fun i => (i * b, i * b + b))
    ++ (if n % b ≠ 0 then [((n / b) * b, n)] else [])

/-! ## Keras model graphs (structural view)

Each per-dataset model built by `make_factored_model` / `make_simple_model`
is a chain: input, shared encoder (factored mode only), optional dropout,
per-dataset dense head, softmax.  We record the Keras `layers_by_depth` view:
index 0 is the output softmax, indices grow toward the input (as in Keras,
where depth is distance to the output).  `trainable` and `rate` are the
mutable layer attributes touched by the fine-tuning stage; `lr` is the
optimizer's learning rate. -/

inductive LKind
  | inputL
  | denseEnc (units : Nat)
  | denseHead (units : Nat) (useBias : Bool)
  | dropoutL
  | softmaxL
deriving DecidableEq, Repr

structure KLayer where
  kind : LKind
  trainable : Bool
  rate : Rat
deriving DecidableEq, Repr

structure KModel where
  layersByDepth : List KLayer
  lr : Rat
deriving DecidableEq, Repr

/-- Keras Adam default learning rate. -/
def adamLr : Rat := 1 / 1000

/-- One per-dataset model of `make_factored_model`: softmax over a dense head
over (optional dropout over) the shared encoder over the input. -/
def makeFactoredModel (latent : Nat) (dropout : Rat) (fitIntercept : Bool)
    (classes : List Int) : KModel :=
  { layersByDepth :=
      if 0 < dropout then
        [⟨.softmaxL, true, 0⟩,
         ⟨.denseHead classes.length fitIntercept, true, 0⟩,
         ⟨.dropoutL, true, dropout⟩,
         ⟨.denseEnc latent, true, 0⟩,
         ⟨.inputL, true, 0⟩]
      else
        [⟨.softmaxL, true, 0⟩,
         ⟨.denseHead classes.length fitIntercept, true, 0⟩,
         ⟨.denseEnc latent, true, 0⟩,
         ⟨.inputL, true, 0⟩],
    lr := adamLr }

/-- One per-dataset model of `make_simple_model`: no shared encoder. -/
def makeSimpleModel (dropout : Rat) (fitIntercept : Bool)
    (classes : List Int) : KModel :=
  { layersByDepth :=
      if 0 < dropout then
        [⟨.softmaxL, true, 0⟩,
         ⟨.denseHead classes.length fitIntercept, true, 0⟩,
         ⟨.dropoutL, true, dropout⟩,
         ⟨.inputL, true, 0⟩]
      else
        [⟨.softmaxL, true, 0⟩,
         ⟨.denseHead classes.length fitIntercept, true, 0⟩,
         ⟨.inputL, true, 0⟩],
    lr := adamLr }

def makeFactoredModels (latent : Nat) (dropout : Rat) (fitIntercept : Bool)
    (classes_list : List (List Int)) : List KModel :=
  classes_list.map (makeFactoredModel latent dropout fitIntercept)

def makeSimpleModels (dropout : Rat) (fitIntercept : Bool)
    (classes_list : List (List Int)) : List KModel :=
  classes_list.map (makeSimpleModel dropout fitIntercept)

/-- The per-model mutation of the fine-tuning stage (`fit`, lines 443-446):
learning rate to one tenth of its current value, `layers_by_depth[3][0]`
marked non-trainable, the `rate` attribute of `layers_by_depth[2][0]` set
to zero. -/
def fineTuneMutate (m : KModel) : KModel :=
  let ls := m.layersByDepth
  let ls := match ls.get? 3 with
    | some l => ls.set 3 { l with trainable := false }
    | none => ls
  let ls := match ls.get? 2 with
    | some l => ls.set 2 { l with rate := 0 }
    | none => ls
  { layersByDepth := ls, lr := m.lr * (1 / 10) }

/-! ## Alternating batch trainer (`fit`, lines 372-439)

Per-dataset mutable training state and the round-robin loop.  Numeric
gradient updates and Keras `evaluate` results are external; the loop here
tracks exactly the state the source manipulates: shuffled arrays, the batch
queue, the epoch counter, the model's `stop_training` flag (written by the
`EarlyStopping` tracker at epoch ends, abstracted as an oracle
`es : dataset index → new epoch count → Bool`), and the number of
`train_on_batch` calls. -/

structure DatasetState where
  Xs : List (List Int)
  yb : List (List Nat)
  batches : List (Nat × Nat)
  epoch : Nat
  flag : Bool
  steps : Nat
deriving DecidableEq, Repr

structure TrainState where
  dss : List DatasetState
  rng : Nat
  stopTraining : Bool
deriving DecidableEq, Repr

/-- `while` guard (line 389): `not stop_training and np.min(n_epochs) < max_iter`
(`np.min` of an empty array is an error; the guard is false there, matching
the fact that the source never reaches the loop with zero datasets). -/
def loopGuard (stopTraining : Bool) (epochs : List Nat) (maxIter : Nat) : Bool :=
  !stopTraining &&
    (match epochs with
     | [] => false
     | e :: es => decide ((es.foldl min e) < maxIter))

/-- Update of the shared `stop_training` variable after a model's batch
(lines 432-435): when validation data is present and early stopping is
enabled, it becomes the conjunction of all models' `stop_training` flags;
otherwise it keeps its previous value (`False` from initialization). -/
def stopTrainingUpdate (doVal earlyStop : Bool) (flags : List Bool)
    (prev : Bool) : Bool :=
  if doVal && earlyStop then flags.all (fun b => b) else prev

/-- Advance one dataset by one tick: consume the next batch, or — on
`StopIteration` — reshuffle with a fresh permutation from the shared
generator, regenerate the batch queue, bump the epoch counter, let the
early-stopping tracker write the model's flag, and take the first batch of
the new epoch.  `none` models the unhandled `StopIteration` on an empty
dataset.  The `train_on_batch` gradient step happens in both branches. -/
def stepDataset (doVal earlyStop : Bool) (es : Nat → Nat → Bool) (bs : Nat)
    (i : Nat) (d : DatasetState) (rng : Nat) :
    Option (DatasetState × Nat) :=
  match d.batches with
  | _ :: rest => some ({ d with batches := rest, steps := d.steps + 1 }, rng)
  | [] =>
    let n := d.Xs.length
    let pr := randPerm rng n
    let Xs' := applyPerm pr.1 d.Xs []
    let yb' := applyPerm pr.1 d.yb []
    let epoch' := d.epoch + 1
    let flag' := if doVal && earlyStop then es i epoch' else d.flag
    match genBatches n bs with
    | [] => none
    | _ :: rest =>
      some ({ Xs := Xs', yb := yb', batches := rest, epoch := epoch',
              flag := flag', steps := d.steps + 1 }, pr.2)

/-- The inner `for` loop over models (lines 393-435), processing datasets
`i, i+1, …` (fuel is the number of datasets left). -/
def passAux (doVal earlyStop : Bool) (es : Nat → Nat → Bool) (bs : Nat) :
    Nat → Nat → TrainState → Option TrainState
  | 0, _, st => some st
  | k + 1, i, st =>
    match st.dss.get? i with
    | none => some st
    | some d =>
      match stepDataset doVal earlyStop es bs i d st.rng with
      | none => none
      | some (d', rng') =>
        let dss' := st.dss.set i d'
        let stop' := stopTrainingUpdate doVal earlyStop (dss'.map (·.flag))
          st.stopTraining
        passAux doVal earlyStop es bs k (i + 1)
          { dss := dss', rng := rng', stopTraining := stop' }

/-- One iteration of the `while` body: when validation data is present every
model's `stop_training` flag is first reset to the shared value
(lines 390-392), then each dataset advances one batch. -/
def runPass (doVal earlyStop : Bool) (es : Nat → Nat → Bool) (bs : Nat)
    (st : TrainState) : Option TrainState :=
  let st :=
    if doVal then
      { st with dss := st.dss.map (fun d => { d with flag := st.stopTraining }) }
    else st
  passAux doVal earlyStop es bs st.dss.length 0 st

/-- The `while` loop (line 389 onward), with fuel; exhausted fuel returns the
state reached so far. -/
def trainLoop (doVal earlyStop : Bool) (es : Nat → Nat → Bool)
    (bs maxIter : Nat) : Nat → TrainState → Option TrainState
  | 0, st => some st
  | fuel + 1, st =>
    if loopGuard st.stopTraining (st.dss.map (·.epoch)) maxIter then
      match runPass doVal earlyStop es bs st with
      | none => none
      | some st' => trainLoop doVal earlyStop es bs maxIter fuel st'
    else some st

/-- Initial per-dataset shuffles and batch queues (lines 374-380), consuming
the shared generator in dataset order. -/
def initDatasets (bs : Nat) :
    List (List (List Int)) → List (List (List Nat)) → Nat →
    List DatasetState × Nat
  | [], _, rng => ([], rng)
  | _ :: _, [], rng => ([], rng)
  | x :: xs, yb :: ybs, rng =>
    let pr := randPerm rng x.length
    let d : DatasetState :=
      { Xs := applyPerm pr.1 x [], yb := applyPerm pr.1 yb [],
        batches := genBatches x.length bs, epoch := 0, flag := false,
        steps := 0 }
    let rest := initDatasets bs xs ybs pr.2
    (d :: rest.1, rest.2)

/-! ## The estimator: configuration, fitted state, `fit` -/

/-- The hyperparameters of `FactoredLogistic.__init__` that the embedded
claims depend on (string-valued choices such as `activation` and `optimizer`
only parametrize external Keras numerics and are omitted). -/
structure Config where
  latent_dim : Option Nat
  fit_intercept : Bool
  fine_tune : Bool
  max_iter : Int
  batch_size : Nat
  dropout : Rat
  random_state : RSParam
  early_stop : Bool
deriving DecidableEq, Repr

/-- The attributes `fit` leaves on the estimator.  `X_shuffled` /
`y_bin_shuffled` are the per-dataset arrays after in-place shuffling;
`train_steps` counts `train_on_batch` calls per model; `fineTuneEpochs` is
the number of retraining epochs requested per model by the fine-tuning
stage. -/
structure Fitted where
  datasets_ : List Int
  classes_list_ : List (List Int)
  classes_ : List Int
  n_samples_ : List Nat
  n_epochs_ : List Nat
  X_shuffled : List (List (List Int))
  y_bin_shuffled : List (List (List Nat))
  train_steps : List Nat
  random_state : RSParam
  fine_tune : Bool
  models_ : List KModel
  fineTuneRan : Bool
  fineTuneEpochs : List Nat
deriving DecidableEq, Repr

namespace FactoredLogistic

/-- `FactoredLogistic.fit`.  External numerics are abstracted: `es i e` is the
value the `EarlyStopping` tracker writes into model `i`'s `stop_training`
flag at the end of its epoch `e`; `ftOracle i` is the epoch count at which
the fine-tuning retraining of model `i` would early-stop when validation
data is present; `fuel` bounds the `while` loop (exhausted fuel returns the
state reached, which no claim exercises). -/
def fit (cfg : Config) (X : List (List Int)) (y : List Int)
    (validation : Option (List (List Int) × List Int))
    (es : Nat → Nat → Bool) (ftOracle : Nat → Nat) (fuel : Nat) :
    Except String Fitted :=
  if cfg.max_iter < 0 then .error "ValueError: max_iter" else
  if X.length ≠ y.length then .error "ValueError: check_X_y" else
  if (validation.map (fun v => decide (v.1.length = v.2.length))).getD true
      = false then .error "ValueError: check_X_y validation" else
  let rng0 := check_random_state cfg.random_state
  let doVal := validation.isSome
  let datasets_ := uniqueSorted (lastCol X)
  let groups := partitionByDataset X y
  let X_list := groups.map (fun g => g.map (fun p => p.1.dropLast))
  let y_list := groups.map (fun g => g.map (fun p => p.2))
  let classes_list := y_list.map uniqueSorted
  let y_bin_list := y_list.map fitTransformLB
  let classes_ := classes_list.flatten
  let mf :=
    match cfg.latent_dim with
    | some ld =>
      (makeFactoredModels ld cfg.dropout cfg.fit_intercept classes_list,
       cfg.fine_tune)
    | none =>
      (makeSimpleModels cfg.dropout cfg.fit_intercept classes_list, false)
  let idss := initDatasets cfg.batch_size X_list y_bin_list rng0
  let st0 : TrainState := { dss := idss.1, rng := idss.2, stopTraining := false }
  match trainLoop doVal cfg.early_stop es cfg.batch_size cfg.max_iter.toNat
      fuel st0 with
  | none => .error "StopIteration"
  | some st =>
    let models1 := if mf.2 then mf.1.map fineTuneMutate else mf.1
    let ftEpochs :=
      if mf.2 then
        (List.range mf.1.length).map
          (fun i => if doVal then min (ftOracle i) cfg.max_iter.toNat else 30)
      else []
    .ok {
      datasets_ := datasets_,
      classes_list_ := classes_list,
      classes_ := classes_,
      n_samples_ := X_list.map List.length,
      n_epochs_ := st.dss.map (·.epoch),
      X_shuffled := st.dss.map (·.Xs),
      y_bin_shuffled := st.dss.map (·.yb),
      train_steps := st.dss.map (·.steps),
      random_state := .gen st.rng,
      fine_tune := mf.2,
      models_ := models1,
      fineTuneRan := mf.2,
      fineTuneEpochs := ftEpochs }

end FactoredLogistic

/-! ## Prediction and scoring helpers -/

/-- `np.argmax` over a nonempty list: index of the first maximal entry
(`np.argmax` of an empty array is an error; `0` here, unexercised). -/
def argmaxFrom [LinearOrder α] : List α → Nat → Nat → α → Nat
  | [], _, best, _ => best
  | x :: xs, i, best, bv =>
    if bv < x then argmaxFrom xs (i + 1) i x
    else argmaxFrom xs (i + 1) best bv

def argmax [LinearOrder α] : List α → Nat
  | [] => 0
  | x :: xs => argmaxFrom xs 1 0 x

/-- Python list indexing `l[i]`: negative indices count from the end,
out-of-range is an `IndexError` (`none`). -/
def pyGet (l : List α) (i : Int) : Option α :=
  if 0 ≤ i then l.get? i.toNat
  else if 0 ≤ i + l.length then l.get? (i + l.length).toNat
  else none

/-- Positions of the `true` entries of a boolean mask (`np.nonzero`). -/
def maskPositions (m : List Bool) : List Nat :=
  ((List.range m.length).zip m).filterMap
    (fun p => if p.2 then some p.1 else none)

/-- Fancy assignment `pred[positions] = vals` (positions beyond the end are
never produced by the masks exercised here). -/
def assignAt : List Int → List Nat → List Int → List Int
  | l, [], _ => l
  | l, _, [] => l
  | l, p :: ps, v :: vs => assignAt (l.set p v) ps vs

def ofOption (o : Option α) (msg : String) : Except String α :=
  match o with
  | some a => .ok a
  | none => .error msg

/-- Keras `evaluate` accuracy metric (`categorical_accuracy`): the fraction
of rows whose predicted argmax matches the target's argmax.  The target may
have fewer columns than the prediction (the binary `LabelBinarizer` case);
TensorFlow broadcasting makes this silent, and each such target's argmax is
`0`. -/
def categoricalAccuracy (preds : List (List Rat)) (tgts : List (List Nat)) :
    Rat :=
  let pairs := preds.zip tgts
  if pairs.length = 0 then 0
  else ((pairs.filter (fun p => argmax p.1 = argmax p.2)).length : Rat)
    / (pairs.length : Rat)

/-- `np.mean` of a list of accuracies. -/
def listMean (l : List Rat) : Rat := l.sum / (l.length : Rat)

namespace FactoredLogistic

/-- `FactoredLogistic.predict_proba`.  The trained models' numeric prediction
functions are abstracted as `probFns` (one per dataset, in `datasets_`
order) and `stackedFn` (the stacked joint model); the claims hold for every
choice of them.  With a dataset id, `np.where(self.datasets_ == dataset)[0][0]`
is the first matching position, an `IndexError` when the id was never seen. -/
def predict_proba (st : Fitted) (probFns : List (List Int → List Rat))
    (stackedFn : List Int → List Rat) (X : List (List Int))
    (dataset : Option Int) : Except String (List (List Rat)) :=
  match dataset with
  | none => .ok (X.map stackedFn)
  | some d =>
    match st.datasets_.findIdx? (fun t => t = d) with
    | none => .error "IndexError"
    | some i =>
      match probFns.get? i with
      | none => .error "IndexError"
      | some f => .ok (X.map f)

/-- `FactoredLogistic.predict`.  Mirrors the source faithfully, including its
two quirks: the unmatched-row mask `np.logical_not(np.any(self.datasets_[:,
np.newaxis] == datasets, axis=1))` has one entry per *fitted dataset* (true
iff that dataset has no row in `X`), not one per row — so rows with unknown
ids are never assigned and keep the `np.zeros` placeholder — and the
known-dataset branch indexes `self.classes_list_[this_dataset]` by the
dataset id *value* (Python indexing), not by its position in `datasets_`. -/
def predict (st : Fitted) (probFns : List (List Int → List Rat))
    (stackedFn : List Int → List Rat) (X : List (List Int)) :
    Except String (List Int) := do
  let ids := lastCol X
  let feats := dropIds X
  let pred0 : List Int := ids.map (fun _ => 0)
  let missing : List Bool := st.datasets_.map (fun d => !(ids.contains d))
  let pred1 ←
    if missing.contains true then do
      let pos := maskPositions missing
      let thisX := pos.filterMap (fun j => feats.get? j)
      let probs ← predict_proba st probFns stackedFn thisX none
      let vals ← probs.mapM
        (fun pr => ofOption (st.classes_.get? (argmax pr)) "IndexError")
      pure (assignAt pred0 pos vals)
    else pure pred0
  st.datasets_.foldlM (fun acc d => do
    let m := ids.map (fun t => decide (t = d))
    if m.contains true then do
      let pos := maskPositions m
      let thisX := pos.filterMap (fun j => feats.get? j)
      let probs ← predict_proba st probFns stackedFn thisX (some d)
      let theseClasses ← ofOption (pyGet st.classes_list_ d) "IndexError"
      let vals ← probs.mapM
        (fun pr => ofOption (theseClasses.get? (argmax pr)) "IndexError")
      pure (assignAt acc pos vals)
    else pure acc) pred1

/-- `FactoredLogistic.score`: partition the evaluation rows by fitted dataset
id, binarize each dataset's labels, evaluate that dataset's model, return the
unweighted mean accuracy.  Note the source's
`LabelBinarizer().fit(self.classes_list_[i])` is dead: the subsequent
`fit_transform(this_y)` re-fits the binarizer on the evaluation labels
themselves, which is what this embedding records. -/
def score (st : Fitted) (probFns : List (List Int → List Rat))
    (X : List (List Int)) (y : List Int) : Except String Rat := do
  if X.length ≠ y.length then Except.error "ValueError: check_X_y" else do
  let ids := lastCol X
  let feats := dropIds X
  let accs ← ((List.range st.datasets_.length).zip st.datasets_).mapM
    (fun p => do
      let sub := ((feats.zip ids).zip y).filter (fun q => q.1.2 = p.2)
      let thisX := sub.map (fun q => q.1.1)
      let thisY := sub.map (fun q => q.2)
      let ybin := fitTransformLB thisY
      let f ← ofOption (probFns.get? p.1) "IndexError"
      pure (categoricalAccuracy (thisX.map f) ybin))
  pure (listMean accs)

end FactoredLogistic

/-- Modelled from the spec: the per-dataset accuracy evaluation that §4.6
describes — "evaluates each dataset's head-model loss/accuracy against its
local one-hot encoding", the local encoding being the one built from the
dataset's fit-time class set (`classes_list_[i]`).  Differs from
`FactoredLogistic.score` only in the binarization step; used to compare the
source's behavior against the claim. -/
def scoreLocalSpec (st : Fitted) (probFns : List (List Int → List Rat))
    (X : List (List Int)) (y : List Int) : Except String Rat := do
  if X.length ≠ y.length then Except.error "ValueError: check_X_y" else do
  let ids := lastCol X
  let feats := dropIds X
  let accs ← ((List.range st.datasets_.length).zip st.datasets_).mapM
    (fun p => do
      let sub := ((feats.zip ids).zip y).filter (fun q => q.1.2 = p.2)
      let thisX := sub.map (fun q => q.1.1)
      let thisY := sub.map (fun q => q.2)
      let ybin := labelBinarize (st.classes_list_.getD p.1 []) thisY
      let f ← ofOption (probFns.get? p.1) "IndexError"
      pure (categoricalAccuracy (thisX.map f) ybin))
  pure (listMean accs)

/-! ## `Projector.transform` (projection collaborator) -/

/-- The process-wide MKL thread-pool width. -/
structure MklState where
  maxThreads : Nat
deriving DecidableEq, Repr

/-- Matrix transpose (`loadings.T`). -/
def transposeM (m : List (List Rat)) : List (List Rat) :=
  match m with
  | [] => []
  | r :: _ => (List.range r.length).map (fun j => m.map (fun row => row.getD j 0))

namespace Projector

/-- `Projector.transform`, state-passing view of the global MKL thread
width.  `lstsqResult` stands for `scipy.linalg.lstsq(self.basis.T, X.T)`,
which may raise (`Except.error`).  The source reads the current width, sets
it to `n_jobs`, runs the solve, and sets it back — with no `try/finally`, so
on an exception the width stays at `n_jobs`. -/
def transform (n_jobs : Nat)
    (lstsqResult : Except String (List (List Rat))) (s : MklState) :
    Except String (List (List Rat)) × MklState :=
  let current_n_threads := s.maxThreads
  let s1 : MklState := { maxThreads := n_jobs }
  match lstsqResult with
  | .error e => (.error e, s1)
  | .ok loadings => (.ok (transposeM loadings), { maxThreads := current_n_threads })

end Projector

/-! ## Helper lemmas -/

theorem foldl_min_le_init (e : Nat) (es : List Nat) : es.foldl min e ≤ e := by
  induction es generalizing e with
  | nil => simp
  | cons a t ih =>
    calc (a :: t).foldl min e = t.foldl min (min e a) := rfl
    _ ≤ min e a := ih (min e a)
    _ ≤ e := Nat.min_le_left e a

theorem foldl_min_le (e : Nat) (es : List Nat) : ∀ x ∈ es, es.foldl min e ≤ x := by
  induction es generalizing e with
  | nil => simp
  | cons a t ih =>
    intro x hx
    rcases List.mem_cons.mp hx with h | h
    · rw [h]
      calc (a :: t).foldl min e = t.foldl min (min e a) := rfl
      _ ≤ min e a := foldl_min_le_init _ _
      _ ≤ a := Nat.min_le_right e a
    · exact ih (min e a) x h

theorem foldl_min_mem (e : Nat) (es : List Nat) :
    es.foldl min e = e ∨ es.foldl min e ∈ es := by
  induction es generalizing e with
  | nil => simp
  | cons a t ih =>
    rcases ih (min e a) with h | h
    · rcases Nat.le_total e a with hle | hle
      · left
        calc (a :: t).foldl min e = t.foldl min (min e a) := rfl
        _ = min e a := h
        _ = e := Nat.min_eq_left hle
      · right
        have : (a :: t).foldl min e = a := by
          calc (a :: t).foldl min e = t.foldl min (min e a) := rfl
          _ = min e a := h
          _ = a := Nat.min_eq_right hle
        rw [this]; exact List.mem_cons_self a t
    · right
      exact List.mem_cons_of_mem a h

theorem findIdx_eq_none_of_not_mem (l : List Int) (d : Int) (h : d ∉ l) :
    l.findIdx? (fun t => t = d) = none := by
  induction l with
  | nil => rfl
  | cons x xs ih =>
    rw [List.mem_cons, not_or] at h
    rw [List.findIdx?_cons]
    have : (decide (x = d)) = false := by
      simp only [decide_eq_false_iff_not]
      exact fun he => h.1 he.symm
    rw [this]
    simp [ih h.2]

/-! ## Concrete instances used by the claim theorems and witnesses -/

/-- A fitted estimator whose dataset ids are 1 and 2 (valid ids that do not
coincide with their positions in `datasets_`). -/
def stA : Fitted :=
  { datasets_ := [1, 2], classes_list_ := [[10, 11], [20, 21]],
    classes_ := [10, 11, 20, 21], n_samples_ := [1, 1], n_epochs_ := [1, 1],
    X_shuffled := [], y_bin_shuffled := [], train_steps := [],
    random_state := .gen 0, fine_tune := false, models_ := [],
    fineTuneRan := false, fineTuneEpochs := [] }

/-- As `stA` but with dataset ids -1 and 0 (negative ids are valid integer
dataset ids). -/
def stB : Fitted := { stA with datasets_ := [-1, 0] }

/-- A fitted estimator with the single dataset id 0. -/
def stC : Fitted :=
  { stA with
    datasets_ := [0],
    classes_list_ := [[10, 11]],
    classes_ := [10, 11] }

/-- A fitted estimator with one dataset whose fit-time class set is
`[0, 1, 2]`. -/
def stD : Fitted :=
  { stA with
    datasets_ := [0],
    classes_list_ := [[0, 1, 2]],
    classes_ := [0, 1, 2] }

/-- Head prediction functions: constant probability vectors (the claims hold
or fail independently of the numeric values). -/
def pf0 : List Int → List Rat := fun _ => [1, 0]
def pf1 : List Int → List Rat := fun _ => [0, 1]
def pstk4 : List Int → List Rat := fun _ => [1, 0, 0, 0]
def pstk2 : List Int → List Rat := fun _ => [1, 0]
def pf3 : List Int → List Rat := fun _ => [0, 0, 1]

/-- Configuration for the concrete `fit` runs: simple mode, integer seed. -/
def cfgA : Config :=
  { latent_dim := none, fit_intercept := true, fine_tune := true,
    max_iter := 1, batch_size := 10, dropout := 0,
    random_state := .seed 0, early_stop := true }

def exX : List (List Int) := [[1, 0], [2, 0], [3, 0], [4, 0], [5, 0]]
def exY : List Int := [0, 1, 0, 1, 0]
def esNever : Nat → Nat → Bool := fun _ _ => false
def ftZero : Nat → Nat := fun _ => 0

/-! ## Claim theorems -/

deriving instance DecidableEq for Except

/-- C1: `predict` does not map each row back through the class set of the
dataset owning its id.  Three concrete failures of the claim: (i) with fitted
ids 1 and 2 the class lookup `classes_list_[this_dataset]` indexes by the id
value and raises `IndexError` for id 2; (ii) with fitted ids -1 and 0 the row
with id -1 (owned by the dataset at position 0, class set `[10, 11]`) is
returned label 20 out of the *other* dataset's class set; (iii) with fitted
id 0 only, a row with the unknown id 5 is never routed to the stacked model
(the unmatched-row mask is built along the wrong axis) and keeps the
`np.zeros` placeholder 0, which is not in the global class set. -/
theorem predict_class_lookup_bug :
    FactoredLogistic.predict stA [pf0, pf1] pstk4 [[7, 1], [8, 2]]
      = .error "IndexError"
    ∧ (FactoredLogistic.predict stB [pf0, pf1] pstk4 [[7, -1]] = .ok [20]
        ∧ stB.datasets_.findIdx? (fun t => t = -1) = some 0
        ∧ stB.classes_list_.get? 0 = some [10, 11]
        ∧ (20 : Int) ∉ [(10 : Int), 11])
    ∧ (FactoredLogistic.predict stC [pf0] pstk2 [[7, 0], [9, 5]] = .ok [10, 0]
        ∧ (0 : Int) ∉ stC.classes_) := by
  decide

/-- C2: the per-dataset label encoding of `fit` is *not* rows×|class set| for
a two-class dataset: `LabelBinarizer().fit_transform` on the labels
`[0, 1, 0]` (class set of size 2) yields one column per row, not two. -/
theorem binary_label_encoding_single_column :
    (uniqueSorted [0, 1, 0]).length = 2
    ∧ (fitTransformLB [0, 1, 0]).map List.length = [1, 1, 1] := by
  decide

unseal Rat.add Rat.mul Rat.inv in
/-- C5: `score` does not evaluate against the dataset's local (fit-time)
one-hot encoding: it re-fits the binarizer on the evaluation labels.  With
fit-time class set `[0, 1, 2]`, evaluation labels all equal to class 2, and a
head always predicting class 2, the source returns accuracy 0 (the re-fit
encoding is a single zero column) while the spec's local encoding gives
accuracy 1. -/
theorem score_refits_binarizer_on_eval_labels :
    FactoredLogistic.score stD [pf3] [[5, 0], [6, 0]] [2, 2] = .ok 0
    ∧ scoreLocalSpec stD [pf3] [[5, 0], [6, 0]] [2, 2] = .ok 1 := by
  decide

/-- C8: with the default `dropout=0` the per-dataset chain has four layers,
so `layers_by_depth[3][0]` is the *input* layer and `layers_by_depth[2][0]`
is the encoder: fine-tuning freezes the input layer and leaves the shared
encoder trainable (its weights are still subject to gradient updates),
contradicting the claim that the encoder is frozen.  The learning-rate
reduction to one tenth does happen. -/
theorem fine_tune_freezes_wrong_layer_without_dropout :
    ((fineTuneMutate (makeFactoredModel 5 0 true [0, 1])).layersByDepth.get? 2
        = some ⟨.denseEnc 5, true, 0⟩)
    ∧ ((fineTuneMutate (makeFactoredModel 5 0 true [0, 1])).layersByDepth.get? 3
        = some ⟨.inputL, false, 0⟩)
    ∧ (fineTuneMutate (makeFactoredModel 5 0 true [0, 1])).lr
        = adamLr * (1 / 10) :=
  ⟨rfl, rfl, rfl⟩

/-- C9 counterexample: when the least-squares solve raises, the MKL thread
width is *not* restored: starting from width 4 with `n_jobs = 1`, the failing
`transform` leaves the width at 1. -/
theorem transform_width_not_restored_on_error :
    (Projector.transform 1 (.error "LinAlgError") { maxThreads := 4 }).2
      = { maxThreads := 1 }
    ∧ ({ maxThreads := 1 } : MklState) ≠ { maxThreads := 4 } := by
  decide

/-- C9 amended: `Projector.transform` restores the prior thread-pool width
after a successful solve; when the solve raises, the exception propagates
and the width remains at the configured worker count `n_jobs` (there is no
`try/finally`). -/
theorem transform_width_restore_by_path (n_jobs : Nat)
    (res : Except String (List (List Rat))) (s : MklState) :
    (Projector.transform n_jobs res s).2.maxThreads
      = match res with
        | .ok _ => s.maxThreads
        | .error _ => n_jobs := by
  cases res <;> rfl

theorem stopTrainingUpdate_true_iff (doVal earlyStop : Bool) (flags : List Bool) :
    stopTrainingUpdate doVal earlyStop flags false = true
      ↔ (doVal = true ∧ earlyStop = true ∧ ∀ b ∈ flags, b = true) := by
  unfold stopTrainingUpdate
  cases doVal <;> cases earlyStop <;> simp [List.all_eq_true]

theorem count_eq_zero_of_not_mem' {α : Type} [DecidableEq α] (a : α) :
    ∀ l : List α, a ∉ l → l.count a = 0 := by
  intro l
  induction l with
  | nil => intro _; rfl
  | cons x xs ih =>
    intro h
    rw [List.mem_cons, not_or] at h
    simp [List.count_cons, h.1, ih h.2]

theorem le_foldl_min_iff (e : Nat) (es : List Nat) (m : Nat) :
    m ≤ es.foldl min e ↔ ∀ x ∈ e :: es, m ≤ x := by
  constructor
  · intro h x hx
    rcases List.mem_cons.mp hx with h1 | h1
    · exact h1 ▸ le_trans h (foldl_min_le_init e es)
    · exact le_trans h (foldl_min_le e es x h1)
  · intro h
    rcases foldl_min_mem e es with hh | hh
    · rw [hh]; exact h e (List.mem_cons_self e es)
    · exact h _ (List.mem_cons_of_mem e hh)

/-- C3: partitioning the fit input by unique dataset id (ascending) and
re-concatenating the per-dataset row groups reconstructs the original
(feature row, label) multiset — no row dropped or duplicated — while each
group is a sublist of the original rows (original relative order preserved),
and the partition keys are strictly ascending. -/
theorem partition_reconstructs (X : List (List Int)) (y : List Int)
    (h : X.length = y.length) :
    ((partitionByDataset X y).flatten).Perm (taggedRows X y)
    ∧ (∀ g ∈ partitionByDataset X y, g.Sublist (taggedRows X y))
    ∧ (uniqueSorted (lastCol X)).Pairwise (· < ·) := by
  refine ⟨?_, ?_, pairwise_uniqueSorted _⟩
  · rw [List.perm_iff_count]
    intro a
    unfold partitionByDataset
    rw [count_join_map (fun d => (taggedRows X y).filter
      (fun p => rowDataset p.1 = d))]
    rw [sum_count_filter_key (fun p => rowDataset p.1) (taggedRows X y) a _
      (nodup_uniqueSorted _)]
    by_cases hmem : rowDataset a.1 ∈ uniqueSorted (lastCol X)
    · rw [if_pos hmem]
    · rw [if_neg hmem]
      have hnm : a ∉ taggedRows X y := by
        intro hal
        apply hmem
        rw [mem_uniqueSorted]
        obtain ⟨a1, a2⟩ := a
        have hmx : a1 ∈ X := (List.of_mem_zip hal).1
        exact List.mem_map_of_mem (fun r => r.getLastD 0) hmx
      exact (count_eq_zero_of_not_mem' a _ hnm).symm
  · intro g hg
    rw [partitionByDataset, List.mem_map] at hg
    obtain ⟨d, _, rfl⟩ := hg
    exact List.filter_sublist _

theorem partition_reconstructs_witness :
    ((partitionByDataset [[1, 0], [2, 1], [3, 0]] [5, 6, 7]).flatten).Perm
      (taggedRows [[1, 0], [2, 1], [3, 0]] [5, 6, 7]) :=
  (partition_reconstructs [[1, 0], [2, 1], [3, 0]] [5, 6, 7] rfl).1

/-- C4: the alternating training loop's guard is false exactly when either
every dataset's epoch counter has reached `max_iter`, or validation data is
present, early stopping is enabled, and every model's early-stopping flag is
set; moreover a single unset flag together with a single counter below the
maximum keeps the loop running.  (`stopTrainingUpdate … false` is the value
the shared `stop_training` variable holds at the guard: it starts `False` and
lines 432-435 overwrite it with the conjunction of all flags only when
validation is present and early stopping enabled.) -/
theorem loop_terminates_iff (doVal earlyStop : Bool) (flags : List Bool)
    (epochs : List Nat) (maxIter : Nat) (hne : epochs ≠ []) :
    (loopGuard (stopTrainingUpdate doVal earlyStop flags false) epochs maxIter
        = false
      ↔ ((∀ e ∈ epochs, maxIter ≤ e)
          ∨ (doVal = true ∧ earlyStop = true ∧ ∀ b ∈ flags, b = true)))
    ∧ ((∃ e ∈ epochs, e < maxIter) → (∃ b ∈ flags, b = false) →
        loopGuard (stopTrainingUpdate doVal earlyStop flags false) epochs
          maxIter = true) := by
  obtain ⟨e, es, rfl⟩ : ∃ e es, epochs = e :: es := by
    cases epochs with
    | nil => exact absurd rfl hne
    | cons e es => exact ⟨e, es, rfl⟩
  have hguard : ∀ stop : Bool, (loopGuard stop (e :: es) maxIter = false
      ↔ (stop = true ∨ maxIter ≤ es.foldl min e)) := by
    intro stop
    cases stop <;> simp [loopGuard]
  constructor
  · rw [hguard]
    constructor
    · rintro (hs | hm)
      · exact Or.inr ((stopTrainingUpdate_true_iff _ _ _).mp hs)
      · exact Or.inl ((le_foldl_min_iff e es maxIter).mp hm)
    · rintro (hall | hflags)
      · exact Or.inr ((le_foldl_min_iff e es maxIter).mpr hall)
      · exact Or.inl ((stopTrainingUpdate_true_iff _ _ _).mpr hflags)
  · rintro ⟨x, hx, hxm⟩ ⟨b, hb, hbf⟩
    cases hg : loopGuard (stopTrainingUpdate doVal earlyStop flags false)
        (e :: es) maxIter with
    | false =>
      exfalso
      rcases (hguard _).mp hg with hs | hm
      · obtain ⟨_, _, hall⟩ := (stopTrainingUpdate_true_iff _ _ _).mp hs
        rw [hall b hb] at hbf
        exact absurd hbf (by decide)
      · have := (le_foldl_min_iff e es maxIter).mp hm x hx
        omega
    | true => rfl

theorem loop_terminates_iff_witness :
    loopGuard (stopTrainingUpdate true true [false] false) [0] 3 = true :=
  (loop_terminates_iff true true [false] [0] 3 (by decide)).2
    ⟨0, by decide, by decide⟩ ⟨false, by decide, rfl⟩

/-- C6: in simple mode (`latent_dim = None`) a requested `fine_tune=True` is
silently disabled: `fit` sets `self.fine_tune = False` before the training
loop, so the entire fit result — models, epochs, shuffles, generator state,
and the skipped fine-tuning stage — is identical to a fit with
`fine_tune=False`, and no error is raised beyond those of the
`fine_tune=False` run. -/
theorem fit_simple_mode_ignores_fine_tune (cfg : Config) (X : List (List Int))
    (y : List Int) (validation : Option (List (List Int) × List Int))
    (es : Nat → Nat → Bool) (ftOracle : Nat → Nat) (fuel : Nat)
    (h : cfg.latent_dim = none) :
    FactoredLogistic.fit { cfg with fine_tune := true } X y validation es
        ftOracle fuel
      = FactoredLogistic.fit { cfg with fine_tune := false } X y validation es
        ftOracle fuel := by
  cases cfg with
  | mk ld fi ft mi bs dr rs est =>
    simp only at h
    subst h
    rfl

theorem fit_simple_mode_ignores_fine_tune_witness :
    FactoredLogistic.fit { cfgA with fine_tune := true } exX exY none esNever
        ftZero 9
      = FactoredLogistic.fit { cfgA with fine_tune := false } exX exY none
        esNever ftZero 9 :=
  fit_simple_mode_ignores_fine_tune cfgA exX exY none esNever ftZero 9 rfl

/-- C7: `predict_proba` with an unknown dataset id fails with an
`IndexError` (no silent fallback to the stacked model); with a known id it
returns that dataset's head probabilities (the head at the id's position in
`datasets_`); with the dataset argument omitted it returns the stacked
model's joint probabilities. -/
theorem predict_proba_routing (st : Fitted)
    (probFns : List (List Int → List Rat)) (stackedFn : List Int → List Rat)
    (X : List (List Int)) (d : Int) :
    (d ∉ st.datasets_ →
      FactoredLogistic.predict_proba st probFns stackedFn X (some d)
        = .error "IndexError")
    ∧ (∀ i f, st.datasets_.findIdx? (fun t => t = d) = some i →
        probFns.get? i = some f →
        FactoredLogistic.predict_proba st probFns stackedFn X (some d)
          = .ok (X.map f))
    ∧ FactoredLogistic.predict_proba st probFns stackedFn X none
        = .ok (X.map stackedFn) := by
  refine ⟨?_, ?_, rfl⟩
  · intro hd
    simp only [FactoredLogistic.predict_proba]
    rw [findIdx_eq_none_of_not_mem st.datasets_ d hd]
  · intro i f hi hf
    simp only [FactoredLogistic.predict_proba]
    rw [hi]
    show (match probFns.get? i with
      | none => Except.error "IndexError"
      | some f => Except.ok (X.map f)) = Except.ok (X.map f)
    rw [hf]

theorem predict_proba_routing_witness :
    FactoredLogistic.predict_proba stA [pf0, pf1] pstk4 [[3]] (some 5)
      = .error "IndexError"
    ∧ FactoredLogistic.predict_proba stA [pf0, pf1] pstk4 [[3]] (some 2)
      = .ok [pf1 [3]]
    ∧ FactoredLogistic.predict_proba stA [pf0, pf1] pstk4 [[3]] none
      = .ok [pstk4 [3]] :=
  ⟨(predict_proba_routing stA [pf0, pf1] pstk4 [[3]] 5).1 (by decide),
   (predict_proba_routing stA [pf0, pf1] pstk4 [[3]] 2).2.1 1 pf1 rfl rfl,
   (predict_proba_routing stA [pf0, pf1] pstk4 [[3]] 2).2.2⟩

/-- C10: `fit` overwrites the estimator's own hyperparameter attributes:
after fitting with the integer seed 0, `random_state` holds the materialized
generator advanced by the two permutation draws of the run (`lcg (lcg 0)`),
no longer the seed; in simple mode `fine_tune` is overwritten to `False`;
and a second `fit` on the same data — consuming the stored, already-advanced
generator — shuffles the data differently than the first. -/
theorem fit_mutates_hyperparams_second_fit_differs :
    ((FactoredLogistic.fit cfgA exX exY none esNever ftZero 9).map
        Fitted.random_state = .ok (.gen (lcg (lcg 0))))
    ∧ RSParam.gen (lcg (lcg 0)) ≠ cfgA.random_state
    ∧ ((FactoredLogistic.fit cfgA exX exY none esNever ftZero 9).map
        Fitted.fine_tune = .ok false)
    ∧ ((FactoredLogistic.fit cfgA exX exY none esNever ftZero 9).bind
          (fun f => FactoredLogistic.fit
            { cfgA with random_state := f.random_state } exX exY none esNever
            ftZero 9)).map Fitted.X_shuffled
        ≠ (FactoredLogistic.fit cfgA exX exY none esNever ftZero 9).map
            Fitted.X_shuffled := by
  decide
